import Mathlib

/-!
Shallow embedding of the fraud-prover service
(`src/services/fraud-prover.service.ts`, here `src/unnamed/part_000`) and its
executable entry point (`src/exec/run-fraud-prover.ts`).

Addresses, state roots, storage keys/values and revert messages are modelled
as `String` (they are hex strings in the source); indices and gas limits as
`Nat`.  External collaborators (the L1/L2 provider wrappers, the on-chain
state manager / transitioner, the trie and RLP libraries) are modelled as
explicit environments of oracle functions, so that every control-flow
decision of the service itself is reproduced from the source.
-/

/-- Substring test on character lists: `pat` occurs inside `l`.
Mirrors JavaScript `String.prototype.includes`. -/
def listContainsSub (pat : List Char) : List Char → Bool
  | [] => pat.isEmpty
  | c :: rest => pat.isPrefixOf (c :: rest) || listContainsSub pat rest

/-- `msgContains s pat` : the revert message `s` contains `pat`
(JavaScript `s.includes(pat)`). -/
def msgContains (s pat : String) : Bool :=
  listContainsSub pat.data s.data

/-- `StateRootBatchHeader` of the data model (`prevTotalElements` read with
`.toNumber()` in the source, hence a `Nat`). -/
structure BatchHeader where
  batchIndex : Nat
  batchRoot : String
  batchSize : Nat
  prevTotalElements : Nat
  extraData : String
deriving DecidableEq

/-- Merkle inclusion proof `{index, siblings}`. -/
structure InclusionProof where
  index : Nat
  siblings : List String
deriving DecidableEq

/-- `StateRootBatchProof` as consumed by the service. -/
structure StateRootBatchProof where
  stateRoot : String
  stateRootBatchHeader : BatchHeader
  stateRootProof : InclusionProof
deriving DecidableEq

/-- OVM transaction record. -/
structure OvmTransaction where
  timestamp : Nat
  blockNumber : Nat
  l1QueueOrigin : Nat
  l1TxOrigin : String
  entrypoint : String
  gasLimit : Nat
  data : String
deriving DecidableEq

/-- `TransactionBatchProof` as consumed by the service. -/
structure TransactionBatchProof where
  transaction : OvmTransaction
  transactionChainElement : String
  transactionBatchHeader : BatchHeader
  transactionProof : InclusionProof
deriving DecidableEq

/-- `StorageStateProof`: one storage slot witness. -/
structure StorageStateProof where
  key : String
  value : String
  proof : List String
deriving DecidableEq

/-- `AccountStateProof`: one account witness of a state-diff proof. -/
structure AccountStateProof where
  address : String
  nonce : Nat
  balance : Nat
  codeHash : String
  storageRoot : String
  accountProof : List String
  storageProof : List StorageStateProof
deriving DecidableEq

/-- `StateDiffProof`: the witness bundle returned by the rollup node. -/
structure StateDiffProof where
  header : String
  accountStateProofs : List AccountStateProof
deriving DecidableEq

/-! ## Scanner (`_findNextFraudulentStateRoot`, part_000 lines 346-370)

The scanner reads `this.state.nextUnverifiedStateRoot` (the cursor), and
mutates it (`+= 1`) each time the two roots agree.  We model it as a
function from the incoming cursor to `(result, final cursor)`, with fuel
bounding the number of loop iterations. -/

/-- Read-only chain views used by the scanner. -/
structure ScanEnv where
  getStateRootBatchHeader : Nat → Option BatchHeader
  l1GetStateRoot : Nat → String
  l2GetStateRoot : Nat → String

/-- `_findNextFraudulentStateRoot`: while a batch header exists at the
cursor, compare the L1 root at `cursor` with the L2 root at
`cursor + l2BlockOffset`; return the cursor on the first disagreement,
else increment the cursor and iterate.  The second component is the final
value of `nextUnverifiedStateRoot`. -/
def findNextFraudulentStateRoot (env : ScanEnv) (l2BlockOffset : Nat) :
    Nat → Nat → Option Nat × Nat
  | 0, cursor => (none, cursor)
  | fuel + 1, cursor =>
    match env.getStateRootBatchHeader cursor with
    | none => (none, cursor)
    | some _ =>
      if env.l1GetStateRoot cursor ≠ env.l2GetStateRoot (cursor + l2BlockOffset) then
        (some cursor, cursor)
      else
        findNextFraudulentStateRoot env l2BlockOffset fuel (cursor + 1)

/-- Unfolding: the loop exits immediately when no batch header exists at the
cursor. -/
theorem findNext_succ_nohdr (env : ScanEnv) (off fuel cursor : Nat)
    (h : env.getStateRootBatchHeader cursor = none) :
    findNextFraudulentStateRoot env off (fuel + 1) cursor = (none, cursor) := by
  unfold findNextFraudulentStateRoot
  rw [h]

/-- Unfolding: the loop returns the cursor on a root disagreement. -/
theorem findNext_succ_mismatch (env : ScanEnv) (off fuel cursor : Nat)
    (hdr : BatchHeader) (h : env.getStateRootBatchHeader cursor = some hdr)
    (hne : env.l1GetStateRoot cursor ≠ env.l2GetStateRoot (cursor + off)) :
    findNextFraudulentStateRoot env off (fuel + 1) cursor =
      (some cursor, cursor) := by
  unfold findNextFraudulentStateRoot
  rw [h]
  simp [hne]

/-- Unfolding: the loop advances the cursor when the roots agree. -/
theorem findNext_succ_agree (env : ScanEnv) (off fuel cursor : Nat)
    (hdr : BatchHeader) (h : env.getStateRootBatchHeader cursor = some hdr)
    (heq : env.l1GetStateRoot cursor = env.l2GetStateRoot (cursor + off)) :
    findNextFraudulentStateRoot env off (fuel + 1) cursor =
      findNextFraudulentStateRoot env off fuel (cursor + 1) := by
  unfold findNextFraudulentStateRoot
  rw [h]
  simp only [heq, ne_eq, not_true_eq_false, if_false]
  exact findNextFraudulentStateRoot.eq_def env off fuel (cursor + 1)

/-- Full characterization of one scanner run: a `some i` result is the first
disagreement at or after the initial cursor, and a `none` result that did not
exhaust the fuel stops at the first missing batch header, with all earlier
roots equal; in both cases the final cursor is the returned/stopping index. -/
theorem findNext_characterization (env : ScanEnv) (off : Nat) :
    ∀ fuel cursor,
      (∀ i, (findNextFraudulentStateRoot env off fuel cursor).1 = some i →
        cursor ≤ i ∧ (findNextFraudulentStateRoot env off fuel cursor).2 = i ∧
        (env.getStateRootBatchHeader i).isSome ∧
        env.l1GetStateRoot i ≠ env.l2GetStateRoot (i + off) ∧
        ∀ j, cursor ≤ j → j < i →
          (env.getStateRootBatchHeader j).isSome ∧
          env.l1GetStateRoot j = env.l2GetStateRoot (j + off)) ∧
      ((findNextFraudulentStateRoot env off fuel cursor).1 = none →
        (findNextFraudulentStateRoot env off fuel cursor).2 < cursor + fuel →
        cursor ≤ (findNextFraudulentStateRoot env off fuel cursor).2 ∧
        env.getStateRootBatchHeader
          (findNextFraudulentStateRoot env off fuel cursor).2 = none ∧
        ∀ j, cursor ≤ j → j < (findNextFraudulentStateRoot env off fuel cursor).2 →
          (env.getStateRootBatchHeader j).isSome ∧
          env.l1GetStateRoot j = env.l2GetStateRoot (j + off)) := by
  intro fuel
  induction fuel with
  | zero =>
    intro cursor
    constructor
    · intro i hi
      simp [findNextFraudulentStateRoot] at hi
    · intro _ hlt
      simp [findNextFraudulentStateRoot] at hlt
  | succ fuel ih =>
    intro cursor
    cases hhdr : env.getStateRootBatchHeader cursor with
    | none =>
      rw [findNext_succ_nohdr env off fuel cursor hhdr]
      constructor
      · intro i hi
        simp at hi
      · intro _ _
        exact ⟨le_refl _, hhdr, by intro j h1 h2; omega⟩
    | some hdr =>
      by_cases hne :
          env.l1GetStateRoot cursor ≠ env.l2GetStateRoot (cursor + off)
      · rw [findNext_succ_mismatch env off fuel cursor hdr hhdr hne]
        constructor
        · intro i hi
          simp at hi
          subst hi
          exact ⟨le_refl _, rfl, by rw [hhdr]; rfl, hne,
            by intro j h1 h2; omega⟩
        · intro hnone
          simp at hnone
      · push_neg at hne
        rw [findNext_succ_agree env off fuel cursor hdr hhdr hne]
        constructor
        · intro i hi
          obtain ⟨ha, hb, hc, hd, he⟩ := (ih (cursor + 1)).1 i hi
          refine ⟨by omega, hb, hc, hd, ?_⟩
          intro j hj1 hj2
          rcases Nat.eq_or_lt_of_le hj1 with hj | hj
          · subst hj
            exact ⟨by rw [hhdr]; rfl, hne⟩
          · exact he j hj hj2
        · intro hnone hlt
          obtain ⟨ha, hb, hc⟩ := (ih (cursor + 1)).2 hnone (by omega)
          refine ⟨by omega, hb, ?_⟩
          intro j hj1 hj2
          rcases Nat.eq_or_lt_of_le hj1 with hj | hj
          · subst hj
            exact ⟨by rw [hhdr]; rfl, hne⟩
          · exact hc j hj hj2

/-- Concrete scanner environment: batch headers exist at indices 0..5, the
roots agree at 0 and 1 and disagree at index 2. -/
def scanEnvMismatch : ScanEnv where
  getStateRootBatchHeader := fun n =>
    if n ≤ 5 then some ⟨0, "batchRoot", 6, 0, ""⟩ else none
  l1GetStateRoot := fun n => if n = 2 then "rootA" else "rootSame"
  l2GetStateRoot := fun _ => "rootSame"

/-- Concrete scanner environment: a batch header exists only at index 0 and
the roots there agree, so the scan falls off the chain tip. -/
def scanEnvGap : ScanEnv where
  getStateRootBatchHeader := fun n =>
    if n = 0 then some ⟨0, "batchRoot", 1, 0, ""⟩ else none
  l1GetStateRoot := fun _ => "rootSame"
  l2GetStateRoot := fun _ => "rootSame"

/-- C1: the scanner compares the L1 state root at the cursor with the L2
state root at `cursor + BlockOffset` wherever a batch header exists, and
returns the first index at which they disagree; it never selects an index
whose two roots are equal; and it returns no index when the batch-header
lookup first returns nothing without a prior disagreement. -/
theorem scanner_selects_first_disagreement (env : ScanEnv)
    (off fuel cursor : Nat) :
    (∀ i, (findNextFraudulentStateRoot env off fuel cursor).1 = some i →
      cursor ≤ i ∧ (env.getStateRootBatchHeader i).isSome ∧
      env.l1GetStateRoot i ≠ env.l2GetStateRoot (i + off) ∧
      ∀ j, cursor ≤ j → j < i →
        (env.getStateRootBatchHeader j).isSome ∧
        env.l1GetStateRoot j = env.l2GetStateRoot (j + off)) ∧
    (∀ i, env.l1GetStateRoot i = env.l2GetStateRoot (i + off) →
      (findNextFraudulentStateRoot env off fuel cursor).1 ≠ some i) ∧
    (∀ n, n < fuel →
      env.getStateRootBatchHeader (cursor + n) = none →
      (∀ j, j < n → (env.getStateRootBatchHeader (cursor + j)).isSome ∧
        env.l1GetStateRoot (cursor + j) =
          env.l2GetStateRoot (cursor + j + off)) →
      (findNextFraudulentStateRoot env off fuel cursor).1 = none) := by
  refine ⟨?_, ?_, ?_⟩
  · intro i hi
    obtain ⟨h1, _, h3, h4, h5⟩ :=
      (findNext_characterization env off fuel cursor).1 i hi
    exact ⟨h1, h3, h4, h5⟩
  · intro i heq hcon
    obtain ⟨_, _, _, h4, _⟩ :=
      (findNext_characterization env off fuel cursor).1 i hcon
    exact h4 heq
  · intro n hn hnone hprev
    cases hres : (findNextFraudulentStateRoot env off fuel cursor).1 with
    | none => rfl
    | some i =>
      obtain ⟨hci, _, hs, hdiff, hall⟩ :=
        (findNext_characterization env off fuel cursor).1 i hres
      rcases lt_trichotomy i (cursor + n) with h | h | h
      · have heq := (hprev (i - cursor) (by omega)).2
        have hie : cursor + (i - cursor) = i := by omega
        rw [hie] at heq
        exact absurd heq hdiff
      · rw [h, hnone] at hs
        simp at hs
      · have hmem := (hall (cursor + n) (by omega) h).1
        rw [hnone] at hmem
        simp at hmem

/-- C1 witness: on `scanEnvMismatch` the scan from cursor 0 selects index 2,
whose roots indeed disagree while the roots at 0 and 1 agree. -/
theorem scanner_selects_first_disagreement_witness :
    (0 : Nat) ≤ 2 ∧ (scanEnvMismatch.getStateRootBatchHeader 2).isSome ∧
    scanEnvMismatch.l1GetStateRoot 2 ≠ scanEnvMismatch.l2GetStateRoot (2 + 1) ∧
    ∀ j, 0 ≤ j → j < 2 →
      (scanEnvMismatch.getStateRootBatchHeader j).isSome ∧
      scanEnvMismatch.l1GetStateRoot j = scanEnvMismatch.l2GetStateRoot (j + 1) :=
  (scanner_selects_first_disagreement scanEnvMismatch 1 10 0).1 2 (by decide)

/-- C8 counterexample: with a single batch header at index 0 and agreeing
roots there, the scan from cursor 0 returns no index but leaves
`nextUnverifiedStateRoot` at 1, not at its pre-scan value 0: the scanner
mutates the cursor even on a miss. -/
theorem scanner_miss_cursor_counterexample :
    (findNextFraudulentStateRoot scanEnvGap 1 10 0).1 = none ∧
    (findNextFraudulentStateRoot scanEnvGap 1 10 0).2 ≠ 0 := by
  decide

/-- C8 (amended): on a scanner miss that did not exhaust the iteration
bound, the scanner returns no index — it performs reads only, every action
in its body being a getter call — but the cursor is advanced past every
index whose roots matched, ending exactly at the first index whose
batch-header lookup returns nothing. -/
theorem scanner_miss_cursor_at_tip (env : ScanEnv) (off fuel cursor : Nat)
    (hnone : (findNextFraudulentStateRoot env off fuel cursor).1 = none)
    (hfuel : (findNextFraudulentStateRoot env off fuel cursor).2 < cursor + fuel) :
    cursor ≤ (findNextFraudulentStateRoot env off fuel cursor).2 ∧
    env.getStateRootBatchHeader
      (findNextFraudulentStateRoot env off fuel cursor).2 = none ∧
    ∀ j, cursor ≤ j → j < (findNextFraudulentStateRoot env off fuel cursor).2 →
      (env.getStateRootBatchHeader j).isSome ∧
      env.l1GetStateRoot j = env.l2GetStateRoot (j + off) :=
  (findNext_characterization env off fuel cursor).2 hnone hfuel

/-- C8 witness: the amended statement instantiated on `scanEnvGap`. -/
theorem scanner_miss_cursor_at_tip_witness :
    (0 : Nat) ≤ (findNextFraudulentStateRoot scanEnvGap 1 10 0).2 ∧
    scanEnvGap.getStateRootBatchHeader
      (findNextFraudulentStateRoot scanEnvGap 1 10 0).2 = none ∧
    ∀ j, 0 ≤ j → j < (findNextFraudulentStateRoot scanEnvGap 1 10 0).2 →
      (scanEnvGap.getStateRootBatchHeader j).isSome ∧
      scanEnvGap.l1GetStateRoot j = scanEnvGap.l2GetStateRoot (j + 1) :=
  scanner_miss_cursor_at_tip scanEnvGap 1 10 0 (by decide) (by decide)

/-! ## Trie views and the witness assembler
(`_getFraudProofData`, `_makeStateTrie`, `_makeAccountTries`,
part_000 lines 377-494)

The `merkle-patricia-tree` library is external; a trie view is therefore
modelled symbolically: a base view built by `makeTrieFromProofs` from the
RLP-encoded proof-node lists, plus the sequence of `put` writes applied to
it. -/

/-- Symbolic in-memory trie view. -/
inductive Trie where
  | fromProofs (proofLists : List (List String))
  | put (t : Trie) (key value : String)
deriving DecidableEq

/-- JS-object write: replace the first binding of `k`, else append. -/
def assocPut {α : Type} (m : List (String × α)) (k : String) (v : α) :
    List (String × α) :=
  match m with
  | [] => [(k, v)]
  | p :: rest => if p.1 == k then (k, v) :: rest else p :: assocPut rest k v

/-- JS-object read: first binding of `k`, if any. -/
def assocGet {α : Type} (m : List (String × α)) (k : String) : Option α :=
  (m.find? (fun p => p.1 == k)).map Prod.snd

theorem assocGet_assocPut_self {α : Type} (m : List (String × α))
    (k : String) (v : α) : assocGet (assocPut m k v) k = some v := by
  induction m with
  | nil => simp [assocPut, assocGet, List.find?]
  | cons p rest ih =>
    by_cases h : p.1 = k
    · simp [assocPut, assocGet, List.find?, h]
    · have hb : (p.1 == k) = false := by simp [h]
      simp only [assocPut, hb, if_false]
      simpa [assocGet, List.find?, hb] using ih

theorem assocGet_assocPut_ne {α : Type} (m : List (String × α))
    (k k' : String) (v : α) (h : k' ≠ k) :
    assocGet (assocPut m k v) k' = assocGet m k' := by
  induction m with
  | nil =>
    have hb0 : (k == k') = false := by simp [Ne.symm h]
    simp [assocPut, assocGet, List.find?, hb0]
  | cons p rest ih =>
    by_cases hp : p.1 = k
    · have hb : (p.1 == k) = true := by simp [hp]
      have hb' : (k == k') = false := by
        simp [(Ne.symm h)]
      have hb'' : (p.1 == k') = false := by
        simp [hp, (Ne.symm h)]
      simp [assocPut, assocGet, List.find?, hb, hb', hb'']
    · have hb : (p.1 == k) = false := by simp [hp]
      simp only [assocPut, hb, if_false]
      by_cases hq : p.1 = k'
      · simp [assocGet, List.find?, hq]
      · have hq' : (p.1 == k') = false := by simp [hq]
        simpa [assocGet, List.find?, hq'] using ih

/-- `_makeStateTrie`: one trie from all `accountProof` lists. -/
def makeStateTrie (proof : StateDiffProof) : Trie :=
  Trie.fromProofs (proof.accountStateProofs.map (fun a => a.accountProof))

/-- `_makeAccountTries`: for each account state proof, a trie from that
account's `storageProof` node lists, keyed by account address. -/
def makeAccountTries (proof : StateDiffProof) : List (String × Trie) :=
  proof.accountStateProofs.foldl
    (fun m a =>
      assocPut m a.address
        (Trie.fromProofs (a.storageProof.map (fun s => s.proof))))
    []

theorem foldl_assocPut_untouched (l : List AccountStateProof)
    (f : AccountStateProof → Trie) (k : String)
    (hk : ∀ b ∈ l, b.address ≠ k) :
    ∀ m, assocGet (l.foldl (fun m a => assocPut m a.address (f a)) m) k =
      assocGet m k := by
  induction l with
  | nil => intro m; rfl
  | cons b rest ih =>
    intro m
    have h1 : b.address ≠ k := hk b (List.mem_cons_self b rest)
    have h2 : ∀ x ∈ rest, x.address ≠ k := fun x hx =>
      hk x (List.mem_cons_of_mem b hx)
    simp only [List.foldl_cons]
    rw [ih h2, assocGet_assocPut_ne _ _ _ _ (Ne.symm h1)]

theorem makeAccountTries_aux (l : List AccountStateProof)
    (f : AccountStateProof → Trie)
    (hnd : (l.map (fun a => a.address)).Nodup) (a : AccountStateProof)
    (ha : a ∈ l) :
    ∀ m, assocGet (l.foldl (fun m b => assocPut m b.address (f b)) m)
      a.address = some (f a) := by
  induction l with
  | nil => cases ha
  | cons b rest ih =>
    intro m
    simp only [List.map_cons, List.nodup_cons] at hnd
    rcases List.mem_cons.mp ha with hab | har
    · subst hab
      simp only [List.foldl_cons]
      have hrest : ∀ x ∈ rest, x.address ≠ a.address := by
        intro x hx hcon
        exact hnd.1 (by rw [← hcon]; exact List.mem_map_of_mem _ hx)
      rw [foldl_assocPut_untouched rest f a.address hrest,
        assocGet_assocPut_self]
    · simp only [List.foldl_cons]
      exact ih hnd.2 har _

/-- `FraudProofData`: the assembled witness bundle. -/
structure FraudProofData where
  stateDiffProof : StateDiffProof
  transactionProof : TransactionBatchProof
  preStateRootProof : StateRootBatchProof
  postStateRootProof : StateRootBatchProof
  stateTrie : Trie
  storageTries : List (String × Trie)
deriving DecidableEq

/-- RPC views consumed by `_getFraudProofData`; each call can fail, which in
the source rejects the enclosing promise (modelled as `Except`). -/
structure ProofEnv where
  getStateRootBatchProof : Int → Except String StateRootBatchProof
  getTransactionBatchProof : Int → Except String TransactionBatchProof
  getStateDiffProof : Int → Except String StateDiffProof

/-- `_getFraudProofData`: pre-state root proof at `i - 1`, post-state root
proof at `i`, transaction proof at `i`, state-diff proof at
`i + l2BlockOffset - 1`, then the local trie views; each `await` propagates
a failure immediately. -/
def getFraudProofData (env : ProofEnv) (l2BlockOffset : Int)
    (transactionIndex : Int) : Except String FraudProofData :=
  match env.getStateRootBatchProof (transactionIndex - 1) with
  | .error e => .error e
  | .ok preStateRootProof =>
    match env.getStateRootBatchProof transactionIndex with
    | .error e => .error e
    | .ok postStateRootProof =>
      match env.getTransactionBatchProof transactionIndex with
      | .error e => .error e
      | .ok transactionProof =>
        match env.getStateDiffProof (transactionIndex + l2BlockOffset - 1) with
        | .error e => .error e
        | .ok stateDiffProof =>
          .ok { stateDiffProof := stateDiffProof
                transactionProof := transactionProof
                preStateRootProof := preStateRootProof
                postStateRootProof := postStateRootProof
                stateTrie := makeStateTrie stateDiffProof
                storageTries := makeAccountTries stateDiffProof }

/-- C6: on success, the bundle's four proofs are exactly the results of the
pre-state-root query at `i-1`, the post-state-root query at `i`, the
transaction query at `i`, and the state-diff query at `i + off - 1`; the
state trie is built from the accounts' `accountProof` lists and, per
account address, the storage trie from that account's `storageProof` lists;
and a failure of any of the four RPCs makes the whole call fail with that
error, returning no partial bundle. -/
theorem fraud_proof_data_assembly (env : ProofEnv) (off i : Int) :
    (∀ d, getFraudProofData env off i = .ok d →
      env.getStateRootBatchProof (i - 1) = .ok d.preStateRootProof ∧
      env.getStateRootBatchProof i = .ok d.postStateRootProof ∧
      env.getTransactionBatchProof i = .ok d.transactionProof ∧
      env.getStateDiffProof (i + off - 1) = .ok d.stateDiffProof ∧
      d.stateTrie = Trie.fromProofs
        (d.stateDiffProof.accountStateProofs.map (fun a => a.accountProof)) ∧
      ((d.stateDiffProof.accountStateProofs.map
          (fun a => a.address)).Nodup →
        ∀ a ∈ d.stateDiffProof.accountStateProofs,
          assocGet d.storageTries a.address =
            some (Trie.fromProofs (a.storageProof.map (fun s => s.proof))))) ∧
    (∀ e, env.getStateRootBatchProof (i - 1) = .error e →
      getFraudProofData env off i = .error e) ∧
    (∀ e p₁, env.getStateRootBatchProof (i - 1) = .ok p₁ →
      env.getStateRootBatchProof i = .error e →
      getFraudProofData env off i = .error e) ∧
    (∀ e p₁ p₂, env.getStateRootBatchProof (i - 1) = .ok p₁ →
      env.getStateRootBatchProof i = .ok p₂ →
      env.getTransactionBatchProof i = .error e →
      getFraudProofData env off i = .error e) ∧
    (∀ e p₁ p₂ t, env.getStateRootBatchProof (i - 1) = .ok p₁ →
      env.getStateRootBatchProof i = .ok p₂ →
      env.getTransactionBatchProof i = .ok t →
      env.getStateDiffProof (i + off - 1) = .error e →
      getFraudProofData env off i = .error e) := by
  refine ⟨?_, ?_, ?_, ?_, ?_⟩
  · intro d hd
    unfold getFraudProofData at hd
    cases h1 : env.getStateRootBatchProof (i - 1) with
    | error e => rw [h1] at hd; exact absurd hd (by simp)
    | ok pre =>
      rw [h1] at hd
      cases h2 : env.getStateRootBatchProof i with
      | error e => rw [h2] at hd; exact absurd hd (by simp)
      | ok post =>
        rw [h2] at hd
        cases h3 : env.getTransactionBatchProof i with
        | error e => rw [h3] at hd; exact absurd hd (by simp)
        | ok tp =>
          rw [h3] at hd
          cases h4 : env.getStateDiffProof (i + off - 1) with
          | error e => rw [h4] at hd; exact absurd hd (by simp)
          | ok sdp =>
            rw [h4] at hd
            simp only [Except.ok.injEq] at hd
            subst hd
            refine ⟨rfl, rfl, rfl, rfl, rfl, ?_⟩
            intro hnd a ha
            exact makeAccountTries_aux sdp.accountStateProofs _ hnd a ha []
  · intro e h1
    unfold getFraudProofData
    rw [h1]
  · intro e p₁ h1 h2
    unfold getFraudProofData
    rw [h1, h2]
  · intro e p₁ p₂ h1 h2 h3
    unfold getFraudProofData
    rw [h1, h2, h3]
  · intro e p₁ p₂ t h1 h2 h3 h4
    unfold getFraudProofData
    rw [h1, h2, h3, h4]

/-- Concrete witness data for the assembler claims. -/
def sampleHeader : BatchHeader :=
  ⟨0, "0xbatch", 4, 0, "0x"⟩

/-- A concrete state-root batch proof. -/
def sampleRootProof : StateRootBatchProof :=
  ⟨"0xroot", sampleHeader, ⟨1, ["0xsib"]⟩⟩

/-- A concrete transaction batch proof. -/
def sampleTxProof : TransactionBatchProof :=
  ⟨⟨0, 2, 0, "0xorigin", "0xentry", 100, "0xdata"⟩, "0xelem", sampleHeader,
    ⟨1, ["0xsib"]⟩⟩

/-- A concrete two-account state-diff proof with distinct addresses. -/
def sampleStateDiff : StateDiffProof :=
  ⟨"0xhdr",
    [⟨"0xaaa", 1, 5, "0xch", "0xsr", ["0xnode1"], [⟨"0xk1", "0xv1", ["0xp1"]⟩]⟩,
     ⟨"0xbbb", 2, 7, "0xch2", "0xsr2", ["0xnode2"], [⟨"0xk2", "0xv2", ["0xp2"]⟩]⟩]⟩

/-- A proof environment in which every RPC succeeds. -/
def sampleProofEnv : ProofEnv where
  getStateRootBatchProof := fun _ => .ok sampleRootProof
  getTransactionBatchProof := fun _ => .ok sampleTxProof
  getStateDiffProof := fun _ => .ok sampleStateDiff

/-- The bundle that `getFraudProofData` assembles on `sampleProofEnv`. -/
def sampleBundle : FraudProofData where
  stateDiffProof := sampleStateDiff
  transactionProof := sampleTxProof
  preStateRootProof := sampleRootProof
  postStateRootProof := sampleRootProof
  stateTrie := makeStateTrie sampleStateDiff
  storageTries := makeAccountTries sampleStateDiff

/-- C6 witness: the success branch of the assembly theorem evaluated on
`sampleProofEnv` at index 7, offset 1. -/
theorem fraud_proof_data_assembly_witness :
    sampleProofEnv.getStateRootBatchProof (7 - 1) =
      .ok sampleBundle.preStateRootProof ∧
    assocGet sampleBundle.storageTries "0xaaa" =
      some (Trie.fromProofs [["0xp1"]]) := by
  have h := (fraud_proof_data_assembly sampleProofEnv 1 7).1
    sampleBundle (by rfl)
  refine ⟨h.1, ?_⟩
  have h6 := h.2.2.2.2.2 (by decide)
    ⟨"0xaaa", 1, 5, "0xch", "0xsr", ["0xnode1"],
      [⟨"0xk1", "0xv1", ["0xp1"]⟩]⟩ (by decide)
  simpa using h6

/-! ## PRE_EXECUTION phase
(`_deployContractCode` lines 519-533, `_proveAccountStates` lines 542-589) -/

/-- Settlement-chain transaction request (the argument of
`l1Wallet.sendTransaction`). -/
structure TxRequest where
  toAddr : Option String
  data : String
  gasLimit : Nat
deriving DecidableEq

/-- Actions submitted to the settlement chain during PRE_EXECUTION. -/
inductive PreAction where
  | sendDeploy (tx : TxRequest)
  | proveContractState (address carrier rlpProof : String)
deriving DecidableEq

/-- Environment of the PRE_EXECUTION phase: state-manager reads, rollup-node
`getCode`, deployment receipts, RLP encoding, and the outcome of each
`proveContractState` submission (`.error` = revert message). -/
structure PreExecEnv where
  hasAccount : String → Bool
  getCode : String → Nat → String
  contractAddressOf : TxRequest → String
  rlpEncodeNodes : List String → String
  proveContractStateResult : String → Except String Unit

/-- The fixed sentinel code-carrier address (part_000 line 564). -/
def sentinelCarrierAddress : String :=
  "0x0000c0De0000C0DE0000c0de0000C0DE0000c0De"

/-- The "magic" 13-byte CODECOPY-RETURN shim prepended to the contract code
(part_000 line 522). -/
def deployCodeMagic : String := "0x600D380380600D6000396000f3"

/-- `toHexString` of the utils module.  Modelled from the spec (the utils
module of this repository is not under `src/`): the init-code is "a fixed
13-byte prefix ... followed by the raw `code`", and `getCode` already
returns a `0x`-prefixed hex string, so on this input the conversion is the
identity. -/
def toHexString (s : String) : String := s

/-- `_deployContractCode`: submit `{to: null, data: magic ++ code,
gasLimit: deployGasLimit}` and return the receipt's `contractAddress`
together with the submitted transaction. -/
def deployContractCode (env : PreExecEnv) (deployGasLimit : Nat)
    (code : String) : String × TxRequest :=
  let deployCode := deployCodeMagic ++ (toHexString code).drop 2
  let tx : TxRequest := ⟨none, deployCode, deployGasLimit⟩
  (env.contractAddressOf tx, tx)

/-- One iteration of the `_proveAccountStates` loop body (lines 548-588).
The `hasAccount` read at line 553 only emits a log line when it answers
`true`; control then falls through to the deployment and the
`proveContractState` submission in either case (there is no `continue`).
Returns the submitted actions, or the re-raised revert message. -/
def proveOneAccount (env : PreExecEnv) (deployGasLimit : Nat)
    (fraudulentStateRootIndex l2BlockOffset : Nat) (a : AccountStateProof) :
    Except String (List PreAction) :=
  let _hasAcct := env.hasAccount a.address
  let accountCode :=
    env.getCode a.address (fraudulentStateRootIndex + l2BlockOffset)
  let deployed :=
    if accountCode ≠ "0x" then
      some (deployContractCode env deployGasLimit accountCode)
    else none
  let ethContractAddress :=
    match deployed with
    | some (addr, _) => addr
    | none => sentinelCarrierAddress
  let deployActs :=
    match deployed with
    | some (_, tx) => [PreAction.sendDeploy tx]
    | none => []
  let proveAct := PreAction.proveContractState a.address ethContractAddress
    (env.rlpEncodeNodes a.accountProof)
  match env.proveContractStateResult a.address with
  | .ok _ => .ok (deployActs ++ [proveAct])
  | .error e =>
    if msgContains e "Account state has already been proven" then
      .ok (deployActs ++ [proveAct])
    else .error e

/-- `_proveAccountStates`: the loop over all account state proofs; a
re-raised revert aborts the whole loop. -/
def proveAccountStates (env : PreExecEnv) (deployGasLimit : Nat)
    (fraudulentStateRootIndex l2BlockOffset : Nat) :
    List AccountStateProof → Except String (List PreAction)
  | [] => .ok []
  | a :: rest =>
    match proveOneAccount env deployGasLimit fraudulentStateRootIndex
        l2BlockOffset a with
    | .error e => .error e
    | .ok acts =>
      match proveAccountStates env deployGasLimit fraudulentStateRootIndex
          l2BlockOffset rest with
      | .error e => .error e
      | .ok acts' => .ok (acts ++ acts')

/-- An account whose state the state manager already has. -/
def sampleAccount : AccountStateProof :=
  ⟨"0xaaa", 1, 5, "0xch", "0xsr", ["0xnode1"], []⟩

/-- Environment in which `hasAccount` answers `true` for every account and
the account has non-empty code. -/
def preEnvProven : PreExecEnv where
  hasAccount := fun _ => true
  getCode := fun _ _ => "0x6001"
  contractAddressOf := fun _ => "0xcarrier"
  rlpEncodeNodes := fun _ => "0xrlp"
  proveContractStateResult := fun _ => .ok ()

/-- C2: the code contradicts the claimed (and clearly intended, per its own
"skipping" log line) guard: although `hasAccount` answers `true` for the
account, the PRE_EXECUTION driver still issues the bytecode-carrier
deployment and the `proveContractState` submission for it. -/
theorem hasAccount_does_not_skip :
    preEnvProven.hasAccount sampleAccount.address = true ∧
    proveAccountStates preEnvProven 4000000 7 1 [sampleAccount] =
      .ok [PreAction.sendDeploy ⟨none, deployCodeMagic ++ "6001", 4000000⟩,
        PreAction.proveContractState "0xaaa" "0xcarrier" "0xrlp"] :=
  ⟨rfl, rfl⟩

/-- C7: if the rollup's `getCode` returns `0x`, the carrier passed to
`proveContractState` is the fixed sentinel address and no deployment is
issued; otherwise the carrier is the receipt `contractAddress` of a
deployment transaction with `to = null`, data equal to the 13-byte magic
`600D380380600D6000396000f3` followed by the raw code, and gas limit
`DeployGasLimit`. -/
theorem carrier_address_determination (env : PreExecEnv)
    (gl idx off : Nat) (a : AccountStateProof)
    (hok : env.proveContractStateResult a.address = .ok ()) :
    (env.getCode a.address (idx + off) = "0x" →
      proveOneAccount env gl idx off a =
        .ok [PreAction.proveContractState a.address sentinelCarrierAddress
          (env.rlpEncodeNodes a.accountProof)]) ∧
    (env.getCode a.address (idx + off) ≠ "0x" →
      proveOneAccount env gl idx off a =
        .ok [PreAction.sendDeploy
            ⟨none, deployCodeMagic ++
              (toHexString (env.getCode a.address (idx + off))).drop 2, gl⟩,
          PreAction.proveContractState a.address
            (env.contractAddressOf
              ⟨none, deployCodeMagic ++
                (toHexString (env.getCode a.address (idx + off))).drop 2, gl⟩)
            (env.rlpEncodeNodes a.accountProof)]) := by
  constructor
  · intro hc
    simp [proveOneAccount, hc, hok]
  · intro hc
    simp [proveOneAccount, deployContractCode, hc, hok]

/-- Environment for the sentinel branch: empty code everywhere. -/
def preEnvEmpty : PreExecEnv where
  hasAccount := fun _ => false
  getCode := fun _ _ => "0x"
  contractAddressOf := fun _ => "0xcarrier"
  rlpEncodeNodes := fun _ => "0xrlp"
  proveContractStateResult := fun _ => .ok ()

/-- C7 witness: the determination evaluated on `preEnvEmpty` (the account's
code is `0x`, so the sentinel branch fires). -/
theorem carrier_address_determination_witness :
    preEnvEmpty.proveContractStateResult sampleAccount.address = .ok () ∧
    ((preEnvEmpty.getCode sampleAccount.address (7 + 1) = "0x" →
      proveOneAccount preEnvEmpty 400 7 1 sampleAccount =
        .ok [PreAction.proveContractState sampleAccount.address
          sentinelCarrierAddress
          (preEnvEmpty.rlpEncodeNodes sampleAccount.accountProof)]) ∧
     (preEnvEmpty.getCode sampleAccount.address (7 + 1) ≠ "0x" →
      proveOneAccount preEnvEmpty 400 7 1 sampleAccount =
        .ok [PreAction.sendDeploy
            ⟨none, deployCodeMagic ++
              (toHexString (preEnvEmpty.getCode sampleAccount.address
                (7 + 1))).drop 2, 400⟩,
          PreAction.proveContractState sampleAccount.address
            (preEnvEmpty.contractAddressOf
              ⟨none, deployCodeMagic ++
                (toHexString (preEnvEmpty.getCode sampleAccount.address
                  (7 + 1))).drop 2, 400⟩)
            (preEnvEmpty.rlpEncodeNodes sampleAccount.accountProof)])) :=
  ⟨rfl, carrier_address_determination preEnvEmpty 400 7 1 sampleAccount rfl⟩

/-! ## POST_EXECUTION phase
(`_updateAccountStates` lines 638-750,
`_updateContractStorageStates` lines 760-872,
their composition in `_start` lines 268-285)

The on-chain state manager / transitioner is modelled as a readable view
`SMView`; each commit submission is an oracle transition that either yields
the next view or reverts with a message. -/

/-- Account state as returned by `OVM_StateManager.getAccount` (the source
converts `nonce` with `.toNumber()`). -/
structure AccountState where
  nonce : Nat
  balance : Nat
  storageRoot : String
  codeHash : String
deriving DecidableEq

/-- Readable state of the on-chain state manager and transitioner event
log. -/
structure SMView where
  totalUncommittedAccounts : Nat
  totalUncommittedContractStorage : Nat
  wasAccountCommitted : String → Bool
  wasAccountChanged : String → Bool
  wasContractStorageCommitted : String → String → Bool
  wasContractStorageChanged : String → String → Bool
  getAccount : String → AccountState
  getContractStorage : String → String → String
  accountCommittedEvents : List String
  storageCommittedEvents : List (String × String)

/-- External primitives and commit outcomes of the POST_EXECUTION phase:
`keccak` (ethers), the canonical account-state / storage-value encoders and
`createProof` (utils + trie library), and the two commit submissions, each
either yielding the next on-chain view or reverting with a message. -/
structure PostExecEnv where
  keccak : String → String
  encodeAccountState : AccountState → String
  encodeStorageValue : String → String
  createProof : Trie → String → String
  commitContractState : SMView → String → Except String SMView
  commitStorageSlot : SMView → String → String → Except String SMView
  completeTransition : SMView → Except String SMView

/-- On-chain submissions of the POST_EXECUTION phase, in program order. -/
inductive PostAction where
  | commitContractState (address rlpProof : String)
  | commitStorageSlot (address key rlpProof : String)
  | completeTransition
deriving DecidableEq

/-- Is this action a `commitContractState` submission? -/
def PostAction.isAccountCommit : PostAction → Bool
  | .commitContractState _ _ => true
  | _ => false

/-- Is this action a `commitStorageSlot` submission? -/
def PostAction.isStorageCommit : PostAction → Bool
  | .commitStorageSlot _ _ _ => true
  | _ => false

/-- Result of a commit loop: normal return (with the final on-chain view
and local tries), the line-691 "still have accounts to commit" error, a
re-raised revert, or fuel exhaustion (the source loop would still be
running). Every constructor carries the submissions made so far. -/
inductive LoopResult (σ : Type) where
  | completed (s : σ) (trace : List PostAction)
  | inconsistent (trace : List PostAction)
  | fatal (msg : String) (trace : List PostAction)
  | fuelOut (trace : List PostAction)
deriving DecidableEq

/-- Prepend earlier submissions to a loop result's trace. -/
def LoopResult.withTrace {σ : Type} (tr : List PostAction) :
    LoopResult σ → LoopResult σ
  | .completed s trace => .completed s (tr ++ trace)
  | .inconsistent trace => .inconsistent (tr ++ trace)
  | .fatal e trace => .fatal e (tr ++ trace)
  | .fuelOut trace => .fuelOut (tr ++ trace)

/-- The trace of submissions of a loop result. -/
def LoopResult.trace {σ : Type} : LoopResult σ → List PostAction
  | .completed _ trace => trace
  | .inconsistent trace => trace
  | .fatal _ trace => trace
  | .fuelOut trace => trace

/-- Revert messages absorbed by the account-commit loop
(part_000 lines 733-741). -/
def isAccountCommitRaceRevert (e : String) : Bool :=
  msgContains e "invalid opcode" || msgContains e "Invalid root hash" ||
  msgContains e "Account state wasn't changed or has already been committed."

/-- Revert messages absorbed by the storage-commit loop
(part_000 lines 854-862). -/
def isStorageCommitRaceRevert (e : String) : Bool :=
  msgContains e "invalid opcode" || msgContains e "Invalid root hash" ||
  msgContains e "Storage slot value wasn't changed or has already been committed."

/-- Lines 650-675: replay every `AccountCommitted` event that intersects
our proof data into the local state trie (`put` of the state manager's
current account state under `keccak256(address)`). -/
def accountTrieSync (env : PostExecEnv) (sm : SMView)
    (proofs : List AccountStateProof) (stateTrie : Trie) : Trie :=
  (proofs.filter (fun account =>
    sm.accountCommittedEvents.any (fun ev =>
      ev.toLower == account.address.toLower))).foldl
    (fun t account =>
      t.put (env.keccak account.address)
        (env.encodeAccountState (sm.getAccount account.address))) stateTrie

/-- The predicate of line 679-687: changed but not yet committed. -/
def isUncommittedChangedAccount (sm : SMView) (account : AccountStateProof) :
    Bool :=
  !(sm.wasAccountCommitted account.address) &&
    sm.wasAccountChanged account.address

/-- `_updateAccountStates`: one fuel unit per `while` iteration. -/
def updateAccountStates (env : PostExecEnv) (proofs : List AccountStateProof) :
    Nat → SMView → Trie → LoopResult (SMView × Trie)
  | 0, _, _ => .fuelOut []
  | fuel + 1, sm, stateTrie =>
    if sm.totalUncommittedAccounts > 0 then
      match proofs.find? (isUncommittedChangedAccount sm) with
      | none =>
        if sm.totalUncommittedAccounts > 0 then .inconsistent []
        else .completed (sm, accountTrieSync env sm proofs stateTrie) []
      | some nextUncommittedAccount =>
        match env.commitContractState sm nextUncommittedAccount.address with
        | .ok sm' =>
          (updateAccountStates env proofs fuel sm'
            (accountTrieSync env sm proofs stateTrie)).withTrace
            [PostAction.commitContractState nextUncommittedAccount.address
              (env.createProof (accountTrieSync env sm proofs stateTrie)
                (env.keccak nextUncommittedAccount.address))]
        | .error e =>
          if isAccountCommitRaceRevert e then
            (updateAccountStates env proofs fuel sm
              (accountTrieSync env sm proofs stateTrie)).withTrace
              [PostAction.commitContractState nextUncommittedAccount.address
                (env.createProof (accountTrieSync env sm proofs stateTrie)
                  (env.keccak nextUncommittedAccount.address))]
          else .fatal e
            [PostAction.commitContractState nextUncommittedAccount.address
              (env.createProof (accountTrieSync env sm proofs stateTrie)
                (env.keccak nextUncommittedAccount.address))]
    else .completed (sm, stateTrie) []

/-- Local storage-trie lookup (`storageTries[address]`; the address is
always present for tries built by `makeAccountTries` from the same proof
list — a missing address would be a JS `TypeError` in the source). -/
def trieAt (tries : List (String × Trie)) (addr : String) : Trie :=
  (assocGet tries addr).getD (Trie.fromProofs [])

/-- Lines 773-797: replay every `ContractStorageCommitted` event that
intersects one account's proof data into that account's local storage trie
(`put` of the state manager's current slot value under
`keccak256(slotKey)`). -/
def updateStorageTrieForAccount (env : PostExecEnv) (sm : SMView)
    (tries : List (String × Trie)) (accountStateProof : AccountStateProof) :
    List (String × Trie) :=
  (accountStateProof.storageProof.filter (fun storageProof =>
    sm.storageCommittedEvents.any (fun ev =>
      ev.1.toLower == accountStateProof.address.toLower &&
      ev.2.toLower == storageProof.key.toLower))).foldl
    (fun ts storageProof =>
      assocPut ts accountStateProof.address
        ((trieAt ts accountStateProof.address).put
          (env.keccak storageProof.key)
          (env.encodeStorageValue
            (sm.getContractStorage accountStateProof.address
              storageProof.key)))) tries

/-- The predicate of lines 801-815: slot changed but not yet committed. -/
def isUncommittedChangedSlot (sm : SMView) (address : String)
    (storageProof : StorageStateProof) : Bool :=
  !(sm.wasContractStorageCommitted address storageProof.key) &&
    sm.wasContractStorageChanged address storageProof.key

/-- Lines 799-870: the `for` over accounts inside one `while` iteration of
`_updateContractStorageStates`; per account, commit that account's first
changed-but-uncommitted slot, if any. -/
def storageCommitPass (env : PostExecEnv) :
    List AccountStateProof → SMView → List (String × Trie) →
    LoopResult (SMView × List (String × Trie))
  | [], sm, tries => .completed (sm, tries) []
  | accountStateProof :: rest, sm, tries =>
    match accountStateProof.storageProof.find?
        (isUncommittedChangedSlot sm accountStateProof.address) with
    | none => storageCommitPass env rest sm tries
    | some nextUncommittedStorageProof =>
      match env.commitStorageSlot sm accountStateProof.address
          nextUncommittedStorageProof.key with
      | .ok sm' =>
        (storageCommitPass env rest sm' tries).withTrace
          [PostAction.commitStorageSlot accountStateProof.address
            nextUncommittedStorageProof.key
            (env.createProof (trieAt tries accountStateProof.address)
              (env.keccak nextUncommittedStorageProof.key))]
      | .error e =>
        if isStorageCommitRaceRevert e then
          (storageCommitPass env rest sm tries).withTrace
            [PostAction.commitStorageSlot accountStateProof.address
              nextUncommittedStorageProof.key
              (env.createProof (trieAt tries accountStateProof.address)
                (env.keccak nextUncommittedStorageProof.key))]
        else .fatal e
          [PostAction.commitStorageSlot accountStateProof.address
            nextUncommittedStorageProof.key
            (env.createProof (trieAt tries accountStateProof.address)
              (env.keccak nextUncommittedStorageProof.key))]

/-- `_updateContractStorageStates`: one fuel unit per `while` iteration;
each iteration re-reads the event log, replays it into the local tries,
then runs the commit pass over all accounts. -/
def updateContractStorageStates (env : PostExecEnv)
    (proofs : List AccountStateProof) :
    Nat → SMView → List (String × Trie) →
    LoopResult (SMView × List (String × Trie))
  | 0, _, _ => .fuelOut []
  | fuel + 1, sm, tries =>
    if sm.totalUncommittedContractStorage > 0 then
      match storageCommitPass env proofs sm
          (proofs.foldl (updateStorageTrieForAccount env sm) tries) with
      | .completed (sm', tries') tr =>
        (updateContractStorageStates env proofs fuel sm' tries').withTrace tr
      | .fatal e tr => .fatal e tr
      | .inconsistent tr => .inconsistent tr
      | .fuelOut tr => .fuelOut tr
    else .completed (sm, tries) []

/-- The POST_EXECUTION block of `_start` (lines 268-285): first
`_updateContractStorageStates`, then `_updateAccountStates`, then
`completeTransition()`; an error of an earlier step prevents every later
step. -/
def postExecutionPhase (env : PostExecEnv) (proofs : List AccountStateProof)
    (fuel1 fuel2 : Nat) (sm : SMView) (stateTrie : Trie)
    (storageTries : List (String × Trie)) :
    LoopResult (SMView × Trie × List (String × Trie)) :=
  match updateContractStorageStates env proofs fuel1 sm storageTries with
  | .fatal e tr => .fatal e tr
  | .inconsistent tr => .inconsistent tr
  | .fuelOut tr => .fuelOut tr
  | .completed (sm1, tries1) tr1 =>
    match updateAccountStates env proofs fuel2 sm1 stateTrie with
    | .fatal e tr => .fatal e (tr1 ++ tr)
    | .inconsistent tr => .inconsistent (tr1 ++ tr)
    | .fuelOut tr => .fuelOut (tr1 ++ tr)
    | .completed (sm2, trie2) tr2 =>
      match env.completeTransition sm2 with
      | .ok sm3 => .completed (sm3, trie2, tries1)
          (tr1 ++ tr2 ++ [PostAction.completeTransition])
      | .error e => .fatal e (tr1 ++ tr2 ++ [PostAction.completeTransition])

theorem trace_withTrace {σ : Type} (tr : List PostAction) (r : LoopResult σ) :
    (LoopResult.withTrace tr r).trace = tr ++ r.trace := by
  cases r <;> rfl

theorem withTrace_nil {σ : Type} (r : LoopResult σ) :
    LoopResult.withTrace [] r = r := by
  cases r <;> simp [LoopResult.withTrace]

theorem withTrace_completed {σ : Type} (tr : List PostAction)
    (r : LoopResult σ) (s : σ) (tr2 : List PostAction)
    (h : r.withTrace tr = .completed s tr2) :
    ∃ tr3, r = .completed s tr3 ∧ tr2 = tr ++ tr3 := by
  cases r with
  | completed s' tr' =>
    simp only [LoopResult.withTrace, LoopResult.completed.injEq] at h
    exact ⟨tr', by rw [h.1], h.2.symm⟩
  | inconsistent tr' => simp [LoopResult.withTrace] at h
  | fatal e tr' => simp [LoopResult.withTrace] at h
  | fuelOut tr' => simp [LoopResult.withTrace] at h

/-! Branch-unfolding equations of the POST_EXECUTION loops. -/

theorem uAS_done (env : PostExecEnv) (proofs : List AccountStateProof)
    (fuel : Nat) (sm : SMView) (t : Trie)
    (h0 : ¬ sm.totalUncommittedAccounts > 0) :
    updateAccountStates env proofs (fuel + 1) sm t = .completed (sm, t) [] := by
  unfold updateAccountStates
  rw [if_neg h0]

theorem uAS_inconsistent (env : PostExecEnv) (proofs : List AccountStateProof)
    (fuel : Nat) (sm : SMView) (t : Trie)
    (h0 : sm.totalUncommittedAccounts > 0)
    (hf : proofs.find? (isUncommittedChangedAccount sm) = none) :
    updateAccountStates env proofs (fuel + 1) sm t = .inconsistent [] := by
  simp only [updateAccountStates, h0, if_true, hf]

theorem uAS_commit_ok (env : PostExecEnv) (proofs : List AccountStateProof)
    (fuel : Nat) (sm sm' : SMView) (t : Trie) (a : AccountStateProof)
    (h0 : sm.totalUncommittedAccounts > 0)
    (hf : proofs.find? (isUncommittedChangedAccount sm) = some a)
    (hc : env.commitContractState sm a.address = .ok sm') :
    updateAccountStates env proofs (fuel + 1) sm t =
      (updateAccountStates env proofs fuel sm'
        (accountTrieSync env sm proofs t)).withTrace
        [PostAction.commitContractState a.address
          (env.createProof (accountTrieSync env sm proofs t)
            (env.keccak a.address))] := by
  simp only [updateAccountStates, h0, if_true, hf, hc]

theorem uAS_commit_race (env : PostExecEnv) (proofs : List AccountStateProof)
    (fuel : Nat) (sm : SMView) (t : Trie) (a : AccountStateProof) (e : String)
    (h0 : sm.totalUncommittedAccounts > 0)
    (hf : proofs.find? (isUncommittedChangedAccount sm) = some a)
    (hc : env.commitContractState sm a.address = .error e)
    (he : isAccountCommitRaceRevert e = true) :
    updateAccountStates env proofs (fuel + 1) sm t =
      (updateAccountStates env proofs fuel sm
        (accountTrieSync env sm proofs t)).withTrace
        [PostAction.commitContractState a.address
          (env.createProof (accountTrieSync env sm proofs t)
            (env.keccak a.address))] := by
  simp only [updateAccountStates, h0, if_true, hf, hc, he]

theorem uAS_commit_fatal (env : PostExecEnv) (proofs : List AccountStateProof)
    (fuel : Nat) (sm : SMView) (t : Trie) (a : AccountStateProof) (e : String)
    (h0 : sm.totalUncommittedAccounts > 0)
    (hf : proofs.find? (isUncommittedChangedAccount sm) = some a)
    (hc : env.commitContractState sm a.address = .error e)
    (he : isAccountCommitRaceRevert e = false) :
    updateAccountStates env proofs (fuel + 1) sm t =
      .fatal e [PostAction.commitContractState a.address
        (env.createProof (accountTrieSync env sm proofs t)
          (env.keccak a.address))] := by
  simp only [updateAccountStates, h0, if_true, hf, hc, he,
    Bool.false_eq_true, if_false]

theorem sCP_skip (env : PostExecEnv) (a : AccountStateProof)
    (rest : List AccountStateProof) (sm : SMView)
    (tries : List (String × Trie))
    (hf : a.storageProof.find? (isUncommittedChangedSlot sm a.address) = none) :
    storageCommitPass env (a :: rest) sm tries =
      storageCommitPass env rest sm tries := by
  simp only [storageCommitPass, hf]

theorem sCP_commit_ok (env : PostExecEnv) (a : AccountStateProof)
    (rest : List AccountStateProof) (sm sm' : SMView)
    (tries : List (String × Trie)) (sp : StorageStateProof)
    (hf : a.storageProof.find? (isUncommittedChangedSlot sm a.address) =
      some sp)
    (hc : env.commitStorageSlot sm a.address sp.key = .ok sm') :
    storageCommitPass env (a :: rest) sm tries =
      (storageCommitPass env rest sm' tries).withTrace
        [PostAction.commitStorageSlot a.address sp.key
          (env.createProof (trieAt tries a.address) (env.keccak sp.key))] := by
  simp only [storageCommitPass, hf, hc]

theorem sCP_commit_race (env : PostExecEnv) (a : AccountStateProof)
    (rest : List AccountStateProof) (sm : SMView)
    (tries : List (String × Trie)) (sp : StorageStateProof) (e : String)
    (hf : a.storageProof.find? (isUncommittedChangedSlot sm a.address) =
      some sp)
    (hc : env.commitStorageSlot sm a.address sp.key = .error e)
    (he : isStorageCommitRaceRevert e = true) :
    storageCommitPass env (a :: rest) sm tries =
      (storageCommitPass env rest sm tries).withTrace
        [PostAction.commitStorageSlot a.address sp.key
          (env.createProof (trieAt tries a.address) (env.keccak sp.key))] := by
  simp only [storageCommitPass, hf, hc, he, if_true]

theorem sCP_commit_fatal (env : PostExecEnv) (a : AccountStateProof)
    (rest : List AccountStateProof) (sm : SMView)
    (tries : List (String × Trie)) (sp : StorageStateProof) (e : String)
    (hf : a.storageProof.find? (isUncommittedChangedSlot sm a.address) =
      some sp)
    (hc : env.commitStorageSlot sm a.address sp.key = .error e)
    (he : isStorageCommitRaceRevert e = false) :
    storageCommitPass env (a :: rest) sm tries =
      .fatal e [PostAction.commitStorageSlot a.address sp.key
        (env.createProof (trieAt tries a.address) (env.keccak sp.key))] := by
  simp only [storageCommitPass, hf, hc, he, Bool.false_eq_true, if_false]

theorem uCSS_done (env : PostExecEnv) (proofs : List AccountStateProof)
    (fuel : Nat) (sm : SMView) (tries : List (String × Trie))
    (h0 : ¬ sm.totalUncommittedContractStorage > 0) :
    updateContractStorageStates env proofs (fuel + 1) sm tries =
      .completed (sm, tries) [] := by
  simp only [updateContractStorageStates, h0, if_false]

theorem uCSS_pass_completed (env : PostExecEnv)
    (proofs : List AccountStateProof) (fuel : Nat) (sm sm' : SMView)
    (tries tries' : List (String × Trie)) (tr : List PostAction)
    (h0 : sm.totalUncommittedContractStorage > 0)
    (hp : storageCommitPass env proofs sm
        (proofs.foldl (updateStorageTrieForAccount env sm) tries) =
      .completed (sm', tries') tr) :
    updateContractStorageStates env proofs (fuel + 1) sm tries =
      (updateContractStorageStates env proofs fuel sm' tries').withTrace tr := by
  simp only [updateContractStorageStates, h0, if_true, hp]

theorem uCSS_pass_fatal (env : PostExecEnv)
    (proofs : List AccountStateProof) (fuel : Nat) (sm : SMView)
    (tries : List (String × Trie)) (e : String) (tr : List PostAction)
    (h0 : sm.totalUncommittedContractStorage > 0)
    (hp : storageCommitPass env proofs sm
        (proofs.foldl (updateStorageTrieForAccount env sm) tries) =
      .fatal e tr) :
    updateContractStorageStates env proofs (fuel + 1) sm tries =
      .fatal e tr := by
  simp only [updateContractStorageStates, h0, if_true, hp]

theorem uCSS_pass_inconsistent (env : PostExecEnv)
    (proofs : List AccountStateProof) (fuel : Nat) (sm : SMView)
    (tries : List (String × Trie)) (tr : List PostAction)
    (h0 : sm.totalUncommittedContractStorage > 0)
    (hp : storageCommitPass env proofs sm
        (proofs.foldl (updateStorageTrieForAccount env sm) tries) =
      .inconsistent tr) :
    updateContractStorageStates env proofs (fuel + 1) sm tries =
      .inconsistent tr := by
  simp only [updateContractStorageStates, h0, if_true, hp]

theorem uCSS_pass_fuelOut (env : PostExecEnv)
    (proofs : List AccountStateProof) (fuel : Nat) (sm : SMView)
    (tries : List (String × Trie)) (tr : List PostAction)
    (h0 : sm.totalUncommittedContractStorage > 0)
    (hp : storageCommitPass env proofs sm
        (proofs.foldl (updateStorageTrieForAccount env sm) tries) =
      .fuelOut tr) :
    updateContractStorageStates env proofs (fuel + 1) sm tries =
      .fuelOut tr := by
  simp only [updateContractStorageStates, h0, if_true, hp]

/-- The account-commit loop submits only `commitContractState` (never a
storage-slot commit). -/
theorem updateAccountStates_no_storage_commit (env : PostExecEnv)
    (proofs : List AccountStateProof) :
    ∀ fuel sm t act,
      act ∈ (updateAccountStates env proofs fuel sm t).trace →
      act.isStorageCommit = false := by
  intro fuel
  induction fuel with
  | zero =>
    intro sm t act h
    simp [updateAccountStates, LoopResult.trace] at h
  | succ fuel ih =>
    intro sm t act h
    by_cases h0 : sm.totalUncommittedAccounts > 0
    · cases hf : proofs.find? (isUncommittedChangedAccount sm) with
      | none =>
        rw [uAS_inconsistent env proofs fuel sm t h0 hf] at h
        simp [LoopResult.trace] at h
      | some a =>
        cases hc : env.commitContractState sm a.address with
        | ok sm' =>
          rw [uAS_commit_ok env proofs fuel sm sm' t a h0 hf hc,
            trace_withTrace] at h
          rcases List.mem_append.mp h with h1 | h2
          · rw [List.mem_singleton] at h1
            subst h1
            rfl
          · exact ih _ _ _ h2
        | error e =>
          cases he : isAccountCommitRaceRevert e with
          | false =>
            rw [uAS_commit_fatal env proofs fuel sm t a e h0 hf hc he] at h
            simp [LoopResult.trace] at h
            subst h
            rfl
          | true =>
            rw [uAS_commit_race env proofs fuel sm t a e h0 hf hc he,
              trace_withTrace] at h
            rcases List.mem_append.mp h with h1 | h2
            · rw [List.mem_singleton] at h1
              subst h1
              rfl
            · exact ih _ _ _ h2
    · rw [uAS_done env proofs fuel sm t h0] at h
      simp [LoopResult.trace] at h

/-- One storage-commit pass submits only `commitStorageSlot`. -/
theorem storageCommitPass_no_account_commit (env : PostExecEnv) :
    ∀ l sm tries act, act ∈ (storageCommitPass env l sm tries).trace →
      act.isAccountCommit = false := by
  intro l
  induction l with
  | nil =>
    intro sm tries act h
    simp [storageCommitPass, LoopResult.trace] at h
  | cons a rest ih =>
    intro sm tries act h
    cases hf : a.storageProof.find? (isUncommittedChangedSlot sm a.address) with
    | none =>
      rw [sCP_skip env a rest sm tries hf] at h
      exact ih _ _ _ h
    | some sp =>
      cases hc : env.commitStorageSlot sm a.address sp.key with
      | ok sm' =>
        rw [sCP_commit_ok env a rest sm sm' tries sp hf hc,
          trace_withTrace] at h
        rcases List.mem_append.mp h with h1 | h2
        · rw [List.mem_singleton] at h1
          subst h1
          rfl
        · exact ih _ _ _ h2
      | error e =>
        cases he : isStorageCommitRaceRevert e with
        | false =>
          rw [sCP_commit_fatal env a rest sm tries sp e hf hc he] at h
          simp [LoopResult.trace] at h
          subst h
          rfl
        | true =>
          rw [sCP_commit_race env a rest sm tries sp e hf hc he,
            trace_withTrace] at h
          rcases List.mem_append.mp h with h1 | h2
          · rw [List.mem_singleton] at h1
            subst h1
            rfl
          · exact ih _ _ _ h2

/-- The storage-commit loop submits only `commitStorageSlot`. -/
theorem updateContractStorageStates_no_account_commit (env : PostExecEnv)
    (proofs : List AccountStateProof) :
    ∀ fuel sm tries act,
      act ∈ (updateContractStorageStates env proofs fuel sm tries).trace →
      act.isAccountCommit = false := by
  intro fuel
  induction fuel with
  | zero =>
    intro sm tries act h
    simp [updateContractStorageStates, LoopResult.trace] at h
  | succ fuel ih =>
    intro sm tries act h
    by_cases h0 : sm.totalUncommittedContractStorage > 0
    · cases hp : storageCommitPass env proofs sm
          (proofs.foldl (updateStorageTrieForAccount env sm) tries) with
      | completed s tr =>
        obtain ⟨sm', tries'⟩ := s
        rw [uCSS_pass_completed env proofs fuel sm sm' tries tries' tr h0 hp,
          trace_withTrace] at h
        rcases List.mem_append.mp h with h1 | h2
        · have hmem : act ∈ (storageCommitPass env proofs sm
              (proofs.foldl (updateStorageTrieForAccount env sm) tries)).trace := by
            rw [hp]
            exact h1
          exact storageCommitPass_no_account_commit env proofs _ _ act hmem
        · exact ih _ _ _ h2
      | fatal e tr =>
        rw [uCSS_pass_fatal env proofs fuel sm tries e tr h0 hp] at h
        have hmem : act ∈ (storageCommitPass env proofs sm
            (proofs.foldl (updateStorageTrieForAccount env sm) tries)).trace := by
          rw [hp]
          exact h
        exact storageCommitPass_no_account_commit env proofs _ _ act hmem
      | inconsistent tr =>
        rw [uCSS_pass_inconsistent env proofs fuel sm tries tr h0 hp] at h
        have hmem : act ∈ (storageCommitPass env proofs sm
            (proofs.foldl (updateStorageTrieForAccount env sm) tries)).trace := by
          rw [hp]
          exact h
        exact storageCommitPass_no_account_commit env proofs _ _ act hmem
      | fuelOut tr =>
        rw [uCSS_pass_fuelOut env proofs fuel sm tries tr h0 hp] at h
        have hmem : act ∈ (storageCommitPass env proofs sm
            (proofs.foldl (updateStorageTrieForAccount env sm) tries)).trace := by
          rw [hp]
          exact h
        exact storageCommitPass_no_account_commit env proofs _ _ act hmem
    · rw [uCSS_done env proofs fuel sm tries h0] at h
      simp [LoopResult.trace] at h

/-- A normal return of the storage-commit loop means its uncommitted
counter reached zero. -/
theorem uCSS_completed_counter (env : PostExecEnv)
    (proofs : List AccountStateProof) :
    ∀ fuel sm tries s tr,
      updateContractStorageStates env proofs fuel sm tries =
        .completed s tr →
      s.1.totalUncommittedContractStorage = 0 := by
  intro fuel
  induction fuel with
  | zero =>
    intro sm tries s tr h
    simp [updateContractStorageStates] at h
  | succ fuel ih =>
    intro sm tries s tr h
    by_cases h0 : sm.totalUncommittedContractStorage > 0
    · cases hp : storageCommitPass env proofs sm
          (proofs.foldl (updateStorageTrieForAccount env sm) tries) with
      | completed s' tr' =>
        obtain ⟨sm', tries'⟩ := s'
        rw [uCSS_pass_completed env proofs fuel sm sm' tries tries' tr' h0 hp]
          at h
        obtain ⟨tr3, hr, _⟩ := withTrace_completed _ _ _ _ h
        exact ih _ _ _ _ hr
      | fatal e tr' =>
        rw [uCSS_pass_fatal env proofs fuel sm tries e tr' h0 hp] at h
        simp at h
      | inconsistent tr' =>
        rw [uCSS_pass_inconsistent env proofs fuel sm tries tr' h0 hp] at h
        simp at h
      | fuelOut tr' =>
        rw [uCSS_pass_fuelOut env proofs fuel sm tries tr' h0 hp] at h
        simp at h
    · rw [uCSS_done env proofs fuel sm tries h0] at h
      simp only [LoopResult.completed.injEq] at h
      obtain ⟨h1, _⟩ := h
      rw [← h1]
      show sm.totalUncommittedContractStorage = 0
      omega

/-- A pass in which no account has a changed-but-uncommitted slot commits
nothing and changes nothing. -/
theorem storageCommitPass_no_candidates (env : PostExecEnv) :
    ∀ l sm tries,
      (∀ a ∈ l, a.storageProof.find?
        (isUncommittedChangedSlot sm a.address) = none) →
      storageCommitPass env l sm tries = .completed (sm, tries) [] := by
  intro l
  induction l with
  | nil =>
    intro sm tries _
    rfl
  | cons a rest ih =>
    intro sm tries hall
    rw [sCP_skip env a rest sm tries (hall a (List.mem_cons_self a rest))]
    exact ih _ _ (fun x hx => hall x (List.mem_cons_of_mem a hx))

/-- When the uncommitted-storage counter is positive but the proof data
contains no changed-and-uncommitted slot, the storage loop never exits and
never raises: it exhausts any iteration bound with no submission. -/
theorem uCSS_no_candidates_spins (env : PostExecEnv)
    (proofs : List AccountStateProof) (sm : SMView)
    (hall : ∀ a ∈ proofs, a.storageProof.find?
      (isUncommittedChangedSlot sm a.address) = none)
    (h0 : sm.totalUncommittedContractStorage > 0) :
    ∀ fuel tries,
      updateContractStorageStates env proofs fuel sm tries = .fuelOut [] := by
  intro fuel
  induction fuel with
  | zero =>
    intro tries
    rfl
  | succ fuel ih =>
    intro tries
    rw [uCSS_pass_completed env proofs fuel sm sm tries
      (proofs.foldl (updateStorageTrieForAccount env sm) tries) [] h0
      (storageCommitPass_no_candidates env proofs sm _ hall)]
    rw [ih _]
    rfl

/-- In `l1 ++ l2`, if `p` fails everywhere on `l1` and `q` fails everywhere
on `l2`, then any `p`-element lies strictly after any `q`-element. -/
theorem append_no_cross {α : Type} (p q : α → Bool) (l1 l2 : List α)
    (h1 : ∀ x ∈ l1, p x = false) (h2 : ∀ x ∈ l2, q x = false) :
    ∀ i j (hi : i < (l1 ++ l2).length) (hj : j < (l1 ++ l2).length),
      p ((l1 ++ l2).get ⟨i, hi⟩) = true →
      q ((l1 ++ l2).get ⟨j, hj⟩) = true → j < i := by
  intro i j hi hj hpi hqj
  by_cases hil : i < l1.length
  · exfalso
    have hmem : (l1 ++ l2).get ⟨i, hi⟩ ∈ l1 := by
      rw [List.get_eq_getElem, List.getElem_append_left hil]
      exact List.getElem_mem hil
    rw [h1 _ hmem] at hpi
    exact Bool.false_ne_true hpi
  · by_cases hjl : j < l1.length
    · omega
    · exfalso
      have hlen : j - l1.length < l2.length := by
        rw [List.length_append] at hj
        omega
      have hmem : (l1 ++ l2).get ⟨j, hj⟩ ∈ l2 := by
        rw [List.get_eq_getElem,
          List.getElem_append_right (Nat.le_of_not_lt hjl)]
        exact List.getElem_mem hlen
      rw [h2 _ hmem] at hqj
      exact Bool.false_ne_true hqj

theorem get_cross_of_eq {α : Type} (p q : α → Bool) (L l1 l2 : List α)
    (hL : L = l1 ++ l2)
    (h1 : ∀ x ∈ l1, p x = false) (h2 : ∀ x ∈ l2, q x = false) :
    ∀ i j (hi : i < L.length) (hj : j < L.length),
      p (L.get ⟨i, hi⟩) = true → q (L.get ⟨j, hj⟩) = true → j < i := by
  subst hL
  exact append_no_cross p q l1 l2 h1 h2

/-- C10: within one POST_EXECUTION handling, every `commitStorageSlot`
submission strictly precedes every `commitContractState` submission in the
submission trace, and an account-state commit can be attempted at all only
if the storage sub-loop returned normally, i.e. with the state manager's
uncommitted-storage counter at zero. -/
theorem storage_commits_precede_account_commits (env : PostExecEnv)
    (proofs : List AccountStateProof) (fuel1 fuel2 : Nat) (sm : SMView)
    (stateTrie : Trie) (storageTries : List (String × Trie)) :
    (∀ i j (hi : i < (postExecutionPhase env proofs fuel1 fuel2 sm stateTrie
        storageTries).trace.length)
      (hj : j < (postExecutionPhase env proofs fuel1 fuel2 sm stateTrie
        storageTries).trace.length),
      ((postExecutionPhase env proofs fuel1 fuel2 sm stateTrie
        storageTries).trace.get ⟨i, hi⟩).isAccountCommit = true →
      ((postExecutionPhase env proofs fuel1 fuel2 sm stateTrie
        storageTries).trace.get ⟨j, hj⟩).isStorageCommit = true →
      j < i) ∧
    ((∃ act ∈ (postExecutionPhase env proofs fuel1 fuel2 sm stateTrie
        storageTries).trace, act.isAccountCommit = true) →
      ∃ sm' tries' tr1,
        updateContractStorageStates env proofs fuel1 sm storageTries =
          .completed (sm', tries') tr1 ∧
        sm'.totalUncommittedContractStorage = 0) := by
  cases hs : updateContractStorageStates env proofs fuel1 sm storageTries with
  | completed s tr1 =>
    obtain ⟨sm1, tries1⟩ := s
    have h1 : ∀ x ∈ tr1, PostAction.isAccountCommit x = false := fun x hx =>
      updateContractStorageStates_no_account_commit env proofs fuel1 sm
        storageTries x (by rw [hs]; exact hx)
    have hcnt : sm1.totalUncommittedContractStorage = 0 :=
      uCSS_completed_counter env proofs fuel1 sm storageTries (sm1, tries1)
        tr1 hs
    cases ha : updateAccountStates env proofs fuel2 sm1 stateTrie with
    | completed s2 tr2 =>
      obtain ⟨sm2, trie2⟩ := s2
      have h2 : ∀ x ∈ tr2 ++ [PostAction.completeTransition],
          PostAction.isStorageCommit x = false := by
        intro x hx
        rcases List.mem_append.mp hx with hx1 | hx2
        · exact updateAccountStates_no_storage_commit env proofs fuel2 sm1
            stateTrie x (by rw [ha]; exact hx1)
        · rw [List.mem_singleton] at hx2
          subst hx2
          rfl
      cases hct : env.completeTransition sm2 with
      | ok sm3 =>
        have hpe : postExecutionPhase env proofs fuel1 fuel2 sm stateTrie
            storageTries = .completed (sm3, trie2, tries1)
              (tr1 ++ (tr2 ++ [PostAction.completeTransition])) := by
          simp only [postExecutionPhase, hs, ha, hct, List.append_assoc]
        refine ⟨get_cross_of_eq _ _ _ tr1
          (tr2 ++ [PostAction.completeTransition]) (by rw [hpe]; rfl)
          h1 h2, ?_⟩
        intro _
        exact ⟨sm1, tries1, tr1, rfl, hcnt⟩
      | error e =>
        have hpe : postExecutionPhase env proofs fuel1 fuel2 sm stateTrie
            storageTries = .fatal e
              (tr1 ++ (tr2 ++ [PostAction.completeTransition])) := by
          simp only [postExecutionPhase, hs, ha, hct, List.append_assoc]
        refine ⟨get_cross_of_eq _ _ _ tr1
          (tr2 ++ [PostAction.completeTransition]) (by rw [hpe]; rfl)
          h1 h2, ?_⟩
        intro _
        exact ⟨sm1, tries1, tr1, rfl, hcnt⟩
    | inconsistent tr2 =>
      have h2 : ∀ x ∈ tr2, PostAction.isStorageCommit x = false := fun x hx =>
        updateAccountStates_no_storage_commit env proofs fuel2 sm1 stateTrie x
          (by rw [ha]; exact hx)
      have hpe : postExecutionPhase env proofs fuel1 fuel2 sm stateTrie
          storageTries = .inconsistent (tr1 ++ tr2) := by
        simp only [postExecutionPhase, hs, ha]
      refine ⟨get_cross_of_eq _ _ _ tr1 tr2 (by rw [hpe]; rfl) h1 h2, ?_⟩
      intro _
      exact ⟨sm1, tries1, tr1, rfl, hcnt⟩
    | fatal e tr2 =>
      have h2 : ∀ x ∈ tr2, PostAction.isStorageCommit x = false := fun x hx =>
        updateAccountStates_no_storage_commit env proofs fuel2 sm1 stateTrie x
          (by rw [ha]; exact hx)
      have hpe : postExecutionPhase env proofs fuel1 fuel2 sm stateTrie
          storageTries = .fatal e (tr1 ++ tr2) := by
        simp only [postExecutionPhase, hs, ha]
      refine ⟨get_cross_of_eq _ _ _ tr1 tr2 (by rw [hpe]; rfl) h1 h2, ?_⟩
      intro _
      exact ⟨sm1, tries1, tr1, rfl, hcnt⟩
    | fuelOut tr2 =>
      have h2 : ∀ x ∈ tr2, PostAction.isStorageCommit x = false := fun x hx =>
        updateAccountStates_no_storage_commit env proofs fuel2 sm1 stateTrie x
          (by rw [ha]; exact hx)
      have hpe : postExecutionPhase env proofs fuel1 fuel2 sm stateTrie
          storageTries = .fuelOut (tr1 ++ tr2) := by
        simp only [postExecutionPhase, hs, ha]
      refine ⟨get_cross_of_eq _ _ _ tr1 tr2 (by rw [hpe]; rfl) h1 h2, ?_⟩
      intro _
      exact ⟨sm1, tries1, tr1, rfl, hcnt⟩
  | inconsistent tr =>
    have hpe : postExecutionPhase env proofs fuel1 fuel2 sm stateTrie
        storageTries = .inconsistent tr := by
      simp only [postExecutionPhase, hs]
    have hall : ∀ act ∈ (postExecutionPhase env proofs fuel1 fuel2 sm
        stateTrie storageTries).trace, act.isAccountCommit = false := by
      intro act hact
      rw [hpe] at hact
      exact updateContractStorageStates_no_account_commit env proofs fuel1 sm
        storageTries act (by rw [hs]; exact hact)
    refine ⟨?_, ?_⟩
    · intro i j hi hj hacc _
      rw [hall _ (List.get_mem _ _ _)] at hacc
      exact absurd hacc Bool.false_ne_true
    · rintro ⟨act, hact, haccTrue⟩
      rw [hall _ hact] at haccTrue
      exact absurd haccTrue Bool.false_ne_true
  | fatal e tr =>
    have hpe : postExecutionPhase env proofs fuel1 fuel2 sm stateTrie
        storageTries = .fatal e tr := by
      simp only [postExecutionPhase, hs]
    have hall : ∀ act ∈ (postExecutionPhase env proofs fuel1 fuel2 sm
        stateTrie storageTries).trace, act.isAccountCommit = false := by
      intro act hact
      rw [hpe] at hact
      exact updateContractStorageStates_no_account_commit env proofs fuel1 sm
        storageTries act (by rw [hs]; exact hact)
    refine ⟨?_, ?_⟩
    · intro i j hi hj hacc _
      rw [hall _ (List.get_mem _ _ _)] at hacc
      exact absurd hacc Bool.false_ne_true
    · rintro ⟨act, hact, haccTrue⟩
      rw [hall _ hact] at haccTrue
      exact absurd haccTrue Bool.false_ne_true
  | fuelOut tr =>
    have hpe : postExecutionPhase env proofs fuel1 fuel2 sm stateTrie
        storageTries = .fuelOut tr := by
      simp only [postExecutionPhase, hs]
    have hall : ∀ act ∈ (postExecutionPhase env proofs fuel1 fuel2 sm
        stateTrie storageTries).trace, act.isAccountCommit = false := by
      intro act hact
      rw [hpe] at hact
      exact updateContractStorageStates_no_account_commit env proofs fuel1 sm
        storageTries act (by rw [hs]; exact hact)
    refine ⟨?_, ?_⟩
    · intro i j hi hj hacc _
      rw [hall _ (List.get_mem _ _ _)] at hacc
      exact absurd hacc Bool.false_ne_true
    · rintro ⟨act, hact, haccTrue⟩
      rw [hall _ hact] at haccTrue
      exact absurd haccTrue Bool.false_ne_true

/-- C4 (amended): during the POST_EXECUTION commit loops, a revert of
`commitContractState` (resp. `commitStorageSlot`) is absorbed — the loop
goes on without raising — exactly when its message contains "invalid
opcode", "Invalid root hash", or the full sentence "Account state wasn't
changed or has already been committed." (resp. "Storage slot value wasn't
changed or has already been committed."); any other revert is re-raised
out of the loop. -/
theorem commit_revert_classification (env : PostExecEnv)
    (proofs rest : List AccountStateProof) (fuel : Nat) (sm : SMView)
    (t : Trie) (tries : List (String × Trie)) (a : AccountStateProof)
    (sp : StorageStateProof) (e : String) :
    (sm.totalUncommittedAccounts > 0 →
      proofs.find? (isUncommittedChangedAccount sm) = some a →
      env.commitContractState sm a.address = .error e →
      ((isAccountCommitRaceRevert e = true →
        updateAccountStates env proofs (fuel + 1) sm t =
          (updateAccountStates env proofs fuel sm
            (accountTrieSync env sm proofs t)).withTrace
            [PostAction.commitContractState a.address
              (env.createProof (accountTrieSync env sm proofs t)
                (env.keccak a.address))]) ∧
       (isAccountCommitRaceRevert e = false →
        updateAccountStates env proofs (fuel + 1) sm t =
          .fatal e [PostAction.commitContractState a.address
            (env.createProof (accountTrieSync env sm proofs t)
              (env.keccak a.address))]))) ∧
    (a.storageProof.find? (isUncommittedChangedSlot sm a.address) = some sp →
      env.commitStorageSlot sm a.address sp.key = .error e →
      ((isStorageCommitRaceRevert e = true →
        storageCommitPass env (a :: rest) sm tries =
          (storageCommitPass env rest sm tries).withTrace
            [PostAction.commitStorageSlot a.address sp.key
              (env.createProof (trieAt tries a.address)
                (env.keccak sp.key))]) ∧
       (isStorageCommitRaceRevert e = false →
        storageCommitPass env (a :: rest) sm tries =
          .fatal e [PostAction.commitStorageSlot a.address sp.key
            (env.createProof (trieAt tries a.address)
              (env.keccak sp.key))]))) :=
  ⟨fun h0 hf hc =>
    ⟨fun he => uAS_commit_race env proofs fuel sm t a e h0 hf hc he,
     fun he => uAS_commit_fatal env proofs fuel sm t a e h0 hf hc he⟩,
   fun hf hc =>
    ⟨fun he => sCP_commit_race env a rest sm tries sp e hf hc he,
     fun he => sCP_commit_fatal env a rest sm tries sp e hf hc he⟩⟩

/-- An account with one storage slot, used across the loop scenarios. -/
def sampleAccount2 : AccountStateProof :=
  ⟨"0xbbb", 2, 7, "0xch2", "0xsr2", ["0xnode2"], [⟨"0xk2", "0xv2", ["0xp2"]⟩]⟩

/-- State-manager view with one uncommitted account and one uncommitted
slot, everything changed and nothing committed, no events yet. -/
def smBusy : SMView where
  totalUncommittedAccounts := 1
  totalUncommittedContractStorage := 1
  wasAccountCommitted := fun _ => false
  wasAccountChanged := fun _ => true
  wasContractStorageCommitted := fun _ _ => false
  wasContractStorageChanged := fun _ _ => true
  getAccount := fun _ => ⟨0, 0, "0xsr", "0xch"⟩
  getContractStorage := fun _ _ => "0x01"
  accountCommittedEvents := []
  storageCommittedEvents := []

/-- Environment whose commits always revert with an absorbable message. -/
def postEnvRace : PostExecEnv where
  keccak := fun s => s
  encodeAccountState := fun _ => "0xacctRlp"
  encodeStorageValue := fun v => v
  createProof := fun _ _ => "0xproof"
  commitContractState := fun _ _ =>
    .error "execution reverted: Invalid root hash"
  commitStorageSlot := fun _ _ _ =>
    .error "execution reverted: Invalid root hash"
  completeTransition := fun sm => .ok sm

/-- C4 witness: on `postEnvRace` (commit reverts with "Invalid root hash")
the account loop absorbs the revert and continues. -/
theorem commit_revert_classification_witness :
    updateAccountStates postEnvRace [sampleAccount2] 1 smBusy
      (Trie.fromProofs []) =
      (updateAccountStates postEnvRace [sampleAccount2] 0 smBusy
        (accountTrieSync postEnvRace smBusy [sampleAccount2]
          (Trie.fromProofs []))).withTrace
        [PostAction.commitContractState sampleAccount2.address
          (postEnvRace.createProof
            (accountTrieSync postEnvRace smBusy [sampleAccount2]
              (Trie.fromProofs []))
            (postEnvRace.keccak sampleAccount2.address))] :=
  ((commit_revert_classification postEnvRace [sampleAccount2] [] 0 smBusy
    (Trie.fromProofs []) [] sampleAccount2 ⟨"0xk2", "0xv2", ["0xp2"]⟩
    "execution reverted: Invalid root hash").1
    (by decide) (by rfl) (by rfl)).1 (by rfl)

/-- A revert message that contains the claim's abbreviated pattern but not
the account loop's full filter sentence. -/
def oddMsg : String :=
  "VM Exception: Storage slot value wasn't changed or has already been committed."

/-- Environment whose `commitContractState` reverts with `oddMsg`. -/
def postEnvOdd : PostExecEnv :=
  { postEnvRace with commitContractState := fun _ _ => .error oddMsg }

/-- C4 counterexample: `oddMsg` contains the claim's substring "wasn't
changed or has already been committed", yet the account loop re-raises it
(it is not one of the loop's three filter strings), contradicting the claim
that such a revert is absorbed. -/
theorem commit_revert_filter_counterexample :
    msgContains oddMsg "wasn't changed or has already been committed" =
      true ∧
    updateAccountStates postEnvOdd [sampleAccount2] 1 smBusy
      (Trie.fromProofs []) =
      .fatal oddMsg [PostAction.commitContractState "0xbbb" "0xproof"] :=
  ⟨rfl, rfl⟩

/-- C5 (amended): if the state manager's uncommitted-accounts counter is
positive but no account in the proof data is changed-and-uncommitted, the
account sub-loop fails with the Inconsistent error; the storage sub-loop,
in the analogous situation, does not fail: it keeps iterating (exhausting
any iteration bound) without raising and without submitting anything. -/
theorem missing_witness_handling (env : PostExecEnv)
    (proofs : List AccountStateProof) (fuel : Nat) (sm : SMView) (t : Trie) :
    (sm.totalUncommittedAccounts > 0 →
      proofs.find? (isUncommittedChangedAccount sm) = none →
      updateAccountStates env proofs (fuel + 1) sm t = .inconsistent []) ∧
    ((∀ a ∈ proofs, a.storageProof.find?
        (isUncommittedChangedSlot sm a.address) = none) →
      sm.totalUncommittedContractStorage > 0 →
      ∀ f tries, updateContractStorageStates env proofs f sm tries =
        .fuelOut []) :=
  ⟨fun h0 hf => uAS_inconsistent env proofs fuel sm t h0 hf,
   fun hall h0 => uCSS_no_candidates_spins env proofs sm hall h0⟩

/-- State-manager view with positive uncommitted counters but no
changed-and-uncommitted account or slot in any proof data. -/
def smNoCandidates : SMView where
  totalUncommittedAccounts := 1
  totalUncommittedContractStorage := 1
  wasAccountCommitted := fun _ => false
  wasAccountChanged := fun _ => false
  wasContractStorageCommitted := fun _ _ => false
  wasContractStorageChanged := fun _ _ => false
  getAccount := fun _ => ⟨0, 0, "0xsr", "0xch"⟩
  getContractStorage := fun _ _ => "0x01"
  accountCommittedEvents := []
  storageCommittedEvents := []

/-- Does a loop result carry the Inconsistent error? -/
def isInconsistentResult {σ : Type} : LoopResult σ → Bool
  | .inconsistent _ => true
  | _ => false

/-- C5 counterexample: with the uncommitted-storage counter at 1 and no
changed-and-uncommitted slot in the proof data, the storage sub-loop does
not fail with Inconsistent — after 50 full iterations it is still spinning
with no submission made. -/
theorem storage_loop_never_inconsistent_counterexample :
    smNoCandidates.totalUncommittedContractStorage > 0 ∧
    updateContractStorageStates postEnvRace [sampleAccount2] 50
      smNoCandidates [] = .fuelOut [] ∧
    isInconsistentResult (updateContractStorageStates postEnvRace
      [sampleAccount2] 50 smNoCandidates []) = false :=
  ⟨by decide, rfl, rfl⟩

/-- C5 witness: the amended statement on `smNoCandidates` — the account
loop raises Inconsistent at once, the storage loop exhausts a bound of 5
iterations with no submission. -/
theorem missing_witness_handling_witness :
    updateAccountStates postEnvRace [sampleAccount2] 1 smNoCandidates
      (Trie.fromProofs []) = .inconsistent [] ∧
    updateContractStorageStates postEnvRace [sampleAccount2] 5
      smNoCandidates [] = .fuelOut [] :=
  ⟨(missing_witness_handling postEnvRace [sampleAccount2] 0 smNoCandidates
      (Trie.fromProofs [])).1 (by decide) (by rfl),
   (missing_witness_handling postEnvRace [sampleAccount2] 0 smNoCandidates
      (Trie.fromProofs [])).2 (by decide) (by decide) 5 []⟩

/-- State-manager view for a clean two-commit run. -/
def smStart : SMView where
  totalUncommittedAccounts := 1
  totalUncommittedContractStorage := 1
  wasAccountCommitted := fun _ => false
  wasAccountChanged := fun _ => true
  wasContractStorageCommitted := fun _ _ => false
  wasContractStorageChanged := fun _ _ => true
  getAccount := fun _ => ⟨0, 0, "0xsr", "0xch"⟩
  getContractStorage := fun _ _ => "0x01"
  accountCommittedEvents := []
  storageCommittedEvents := []

/-- Environment whose commits succeed, decrementing the matching counter
and marking the target committed. -/
def postEnvStep : PostExecEnv where
  keccak := fun s => s
  encodeAccountState := fun _ => "0xacctRlp"
  encodeStorageValue := fun v => v
  createProof := fun _ _ => "0xproof"
  commitContractState := fun sm _ => .ok { sm with
    totalUncommittedAccounts := sm.totalUncommittedAccounts - 1
    wasAccountCommitted := fun _ => true }
  commitStorageSlot := fun sm _ _ => .ok { sm with
    totalUncommittedContractStorage :=
      sm.totalUncommittedContractStorage - 1
    wasContractStorageCommitted := fun _ _ => true }
  completeTransition := fun sm => .ok sm

/-- C10 witness: a clean run submits the storage commit (index 0) before the
account commit (index 1), and the theorem instantiated there yields
`0 < 1`. -/
theorem storage_commits_precede_account_commits_witness :
    (postExecutionPhase postEnvStep [sampleAccount2] 2 2 smStart
      (Trie.fromProofs []) []).trace =
      [PostAction.commitStorageSlot "0xbbb" "0xk2" "0xproof",
       PostAction.commitContractState "0xbbb" "0xproof",
       PostAction.completeTransition] ∧
    (0 : Nat) < 1 :=
  ⟨rfl,
   (storage_commits_precede_account_commits postEnvStep [sampleAccount2] 2 2
     smStart (Trie.fromProofs []) []).1 1 0 (by decide) (by decide)
     (by rfl) (by rfl)⟩

/-! ## The driver iteration (`_start`, part_000 lines 169-340)

One iteration of the polling loop: run the scanner and, on a hit, the
dispute pipeline; the assignment to `nextUnverifiedStateRoot` at line 333
is the last statement of the `try` block, and the `catch` at line 334 only
logs.  Each awaited compound step of the pipeline is one oracle value of
the environment; its internals are modelled above. -/

/-- The three phases of the on-chain state transitioner. -/
inductive StateTransitionPhase where
  | preExecution
  | postExecution
  | complete
deriving DecidableEq

/-- The transitioner's per-phase guard revert message. -/
def phaseGuardMessage : String :=
  "Function must be called during the correct phase."

/-- Outcomes of the awaited steps of one dispute run. -/
structure DisputeEnv where
  proofEnv : ProofEnv
  initializeFraudVerification : Except String Unit
  loadFraudProofContracts : Except String Unit
  phase1 : Except String StateTransitionPhase
  preExecutionBody : Except String Unit
  phase2 : Except String StateTransitionPhase
  postExecutionBody : Except String Unit
  phase3 : Except String StateTransitionPhase
  finalizeFraudVerification : Except String Unit

/-- A guarded phase block (lines 210-256 and 258-301): run the body only
when the transitioner reports the target phase; absorb a revert containing
the per-phase guard message, re-raise anything else. -/
def runPhaseBlock (target : StateTransitionPhase)
    (phaseRead : Except String StateTransitionPhase)
    (body : Except String Unit) : Except String Unit :=
  match phaseRead with
  | .error e => .error e
  | .ok ph =>
    if ph = target then
      match body with
      | .ok _ => .ok ()
      | .error e =>
        if msgContains e phaseGuardMessage then .ok () else .error e
    else .ok ()

/-- The COMPLETE block (lines 303-331): absorb "Invalid batch header." and
"Index out of bounds." (finalized by a peer), re-raise anything else. -/
def runCompleteBlock (phaseRead : Except String StateTransitionPhase)
    (finalize : Except String Unit) : Except String Unit :=
  match phaseRead with
  | .error e => .error e
  | .ok ph =>
    if ph = StateTransitionPhase.complete then
      match finalize with
      | .ok _ => .ok ()
      | .error e =>
        if msgContains e "Invalid batch header." ||
            msgContains e "Index out of bounds." then .ok ()
        else .error e
    else .ok ()

/-- The dispute pipeline for a found index (lines 190-333): assemble the
witness bundle, initialize, load contracts, run the three phase blocks; on
success return the new cursor value
`proof.preStateRootProof.stateRootBatchHeader.prevTotalElements`. -/
def runDispute (env : DisputeEnv) (l2BlockOffset idx : Int) :
    Except String Nat :=
  match getFraudProofData env.proofEnv l2BlockOffset idx with
  | .error e => .error e
  | .ok proof =>
    match env.initializeFraudVerification with
    | .error e => .error e
    | .ok _ =>
      match env.loadFraudProofContracts with
      | .error e => .error e
      | .ok _ =>
        match runPhaseBlock .preExecution env.phase1 env.preExecutionBody with
        | .error e => .error e
        | .ok _ =>
          match runPhaseBlock .postExecution env.phase2
              env.postExecutionBody with
          | .error e => .error e
          | .ok _ =>
            match runCompleteBlock env.phase3
                env.finalizeFraudVerification with
            | .error e => .error e
            | .ok _ =>
              .ok proof.preStateRootProof.stateRootBatchHeader.prevTotalElements

/-- One iteration of the `_start` polling loop: the scanner runs over the
mutable cursor; on a miss the iteration ends with the scanner's final
cursor; on a hit the dispute runs, and only on its success is the cursor
assigned `pre.stateRootBatchHeader.prevTotalElements` — the catch block
only logs. -/
def startIteration (scan : ScanEnv) (denv : DisputeEnv)
    (l2BlockOffset scanFuel cursor : Nat) : Nat :=
  match findNextFraudulentStateRoot scan l2BlockOffset scanFuel cursor with
  | (none, cursor') => cursor'
  | (some idx, cursor') =>
    match runDispute denv (Int.ofNat l2BlockOffset) (Int.ofNat idx) with
    | .ok newCursor => newCursor
    | .error _ => cursor'

/-- C3: when the scanner finds index `idx`, the end-of-dispute cursor
assignment happens exactly on a dispute run that raises no unhandled
error: on success the cursor becomes the pre-state-root batch header's
`prevTotalElements`; on any raised error the assignment does not occur and
the cursor stays at `idx`, so the same dispute is retried next poll. -/
theorem cursor_advance_exactly_on_success (scan : ScanEnv)
    (denv : DisputeEnv) (off fuel cursor : Nat) :
    ∀ idx cursor',
      findNextFraudulentStateRoot scan off fuel cursor =
        (some idx, cursor') →
      (∀ v, runDispute denv (Int.ofNat off) (Int.ofNat idx) = .ok v →
        startIteration scan denv off fuel cursor = v ∧
        ∀ d, getFraudProofData denv.proofEnv (Int.ofNat off)
            (Int.ofNat idx) = .ok d →
          v = d.preStateRootProof.stateRootBatchHeader.prevTotalElements) ∧
      (∀ e, runDispute denv (Int.ofNat off) (Int.ofNat idx) = .error e →
        startIteration scan denv off fuel cursor = idx) := by
  intro idx cursor' hscan
  have hchar := ((findNext_characterization scan off fuel cursor).1 idx
    (by rw [hscan])).2.1
  rw [hscan] at hchar
  constructor
  · intro v hok
    constructor
    · simp only [startIteration, hscan, hok]
    · intro d hd
      unfold runDispute at hok
      rw [hd] at hok
      cases h1 : denv.initializeFraudVerification with
      | error e => rw [h1] at hok; exact absurd hok (by simp)
      | ok u1 =>
        rw [h1] at hok
        cases h2 : denv.loadFraudProofContracts with
        | error e => rw [h2] at hok; exact absurd hok (by simp)
        | ok u2 =>
          rw [h2] at hok
          cases h3 : runPhaseBlock .preExecution denv.phase1
              denv.preExecutionBody with
          | error e => rw [h3] at hok; exact absurd hok (by simp)
          | ok u3 =>
            rw [h3] at hok
            cases h4 : runPhaseBlock .postExecution denv.phase2
                denv.postExecutionBody with
            | error e => rw [h4] at hok; exact absurd hok (by simp)
            | ok u4 =>
              rw [h4] at hok
              cases h5 : runCompleteBlock denv.phase3
                  denv.finalizeFraudVerification with
              | error e => rw [h5] at hok; exact absurd hok (by simp)
              | ok u5 =>
                rw [h5] at hok
                simp only [Except.ok.injEq] at hok
                exact hok.symm
  · intro e herr
    simp only [startIteration, hscan, herr]
    exact hchar

/-- A dispute environment in which every awaited step succeeds. -/
def disputeEnvOk : DisputeEnv where
  proofEnv := sampleProofEnv
  initializeFraudVerification := .ok ()
  loadFraudProofContracts := .ok ()
  phase1 := .ok .preExecution
  preExecutionBody := .ok ()
  phase2 := .ok .postExecution
  postExecutionBody := .ok ()
  phase3 := .ok .complete
  finalizeFraudVerification := .ok ()

/-- C3 witness: on `scanEnvMismatch` the scan finds index 2; the all-ok
dispute run rewinds the cursor to the pre-state-root batch header's
`prevTotalElements` (here 0). -/
theorem cursor_advance_exactly_on_success_witness :
    startIteration scanEnvMismatch disputeEnvOk 1 10 0 = 0 ∧
    (0 : Nat) =
      sampleBundle.preStateRootProof.stateRootBatchHeader.prevTotalElements :=
  ⟨(((cursor_advance_exactly_on_success scanEnvMismatch disputeEnvOk 1 10 0)
      2 2 (by rfl)).1 0 (by rfl)).1,
   (((cursor_advance_exactly_on_success scanEnvMismatch disputeEnvOk 1 10 0)
      2 2 (by rfl)).1 0 (by rfl)).2 sampleBundle (by rfl)⟩

/-! ## Configuration (`run-fraud-prover.ts` and the service defaults) -/

/-- `defaultOptions.runGasLimit` of the service (part_000 line 51) — only a
fallback: the entry point always passes an explicit `runGasLimit`. -/
def serviceDefaultRunGasLimit : Nat := 9500000

/-- `RUN_GAS_LIMIT` resolution of the entry point (run-fraud-prover.ts
line 12): `env.RUN_GAS_LIMIT || '95000000'`; an unset (or empty, JS-falsy)
variable falls back to the default string. -/
def runGasLimitEnvString (envVar : Option String) : String :=
  match envVar with
  | some s => if s = "" then "95000000" else s
  | none => "95000000"

/-- `BaseService` option merge.  Modelled from the spec: configuration
values passed by the entry point override the service's `defaultOptions`
(the base-service module of this repository is not under `src/`; spec §6
lists the effective defaults). -/
def mergedRunGasLimit (provided : Option Nat) : Nat :=
  match provided with
  | some v => v
  | none => serviceDefaultRunGasLimit

/-- `parseInt(s, 10)` on an all-digit string (JS built-in, modelled
directly as the decimal fold; non-numeric input gives `NaN`, here
`none`). -/
def parseIntBase10 (s : String) : Option Nat :=
  if s.data ≠ [] ∧ ∀ c ∈ s.data, c.isDigit then
    some (s.data.foldl (fun n c => n * 10 + (c.toNat - 48)) 0)
  else none

/-- The entry point parses the resolved string with `parseInt(s, 10)` and
always passes the result as the `runGasLimit` option. -/
def execRunGasLimit (envVar : Option String) : Option Nat :=
  parseIntBase10 (runGasLimitEnvString envVar)

/-- Lines 235-240: `applyTransaction` is submitted with
`gasLimit: this.options.runGasLimit`. -/
def applyTransactionGasLimit (runGasLimit : Nat) : Nat := runGasLimit

/-- C9: with no configuration override (`RUN_GAS_LIMIT` unset), the
resolved default is 95,000,000 and exactly that value reaches the
`applyTransaction` submission's gas limit. -/
theorem default_run_gas_limit_applied :
    runGasLimitEnvString none = "95000000" ∧
    execRunGasLimit none = some 95000000 ∧
    applyTransactionGasLimit (mergedRunGasLimit (execRunGasLimit none)) =
      95000000 := by
  refine ⟨rfl, ?_, ?_⟩ <;> decide
